import Mathlib

/-!
Verification of the Flowternity form component
(src/src/components/FlowternityForm.tsx).

The component holds five text fields and an in-flight flag, validates the
fields (completeness, email shape, age range), and on success issues one
HTTP POST with the JSON serialization of the fields.  We embed the state,
the validation function, and the submit handler as pure Lean functions;
the network call is modelled by an explicit outcome parameter, toasts and
requests are collected in the result.
-/

/-- The five text fields of the form (interface FormData in the source),
each held as a raw string. -/
structure FormData where
  name : String
  age : String
  city : String
  phone : String
  email : String
deriving Repr, DecidableEq

/-- The initial form data: every field is the empty string. -/
def emptyFormData : FormData :=
  { name := "", age := "", city := "", phone := "", email := "" }

/-- The five field names that appear as the name attribute of the inputs;
handleInputChange dispatches on e.target.name, which is always one of
these. -/
inductive FormField where
  | name | age | city | phone | email
deriving Repr, DecidableEq

/-- Read the named field of the form data. -/
def getField (fd : FormData) : FormField → String
  | .name => fd.name
  | .age => fd.age
  | .city => fd.city
  | .phone => fd.phone
  | .email => fd.email

/-- Write the named field, leaving the others untouched: the spread
update in handleInputChange, prev with the named key replaced. -/
def updateField (fd : FormData) (f : FormField) (v : String) : FormData :=
  match f with
  | .name => { fd with name := v }
  | .age => { fd with age := v }
  | .city => { fd with city := v }
  | .phone => { fd with phone := v }
  | .email => { fd with email := v }

/-- The component state: form data plus the isSubmitting flag. -/
structure ComponentState where
  formData : FormData
  isSubmitting : Bool
deriving Repr, DecidableEq

/-- handleInputChange: setFormData with the named field replaced by the
new value; isSubmitting is not touched. -/
def handleInputChange (st : ComponentState) (f : FormField) (v : String) : ComponentState :=
  { st with formData := updateField st.formData f v }

/-- A character admitted by the bracket class of the email regex:
neither whitespace nor the at sign. -/
def isEmailChar (c : Char) : Bool :=
  !c.isWhitespace && c != '@'

/-- Does the list contain a dot that is not its last element?  Used for
the tail of the email regex: the dot must be followed by at least one
further character. -/
def hasDotNotLast : List Char → Bool
  | [] => false
  | [_] => false
  | c :: rest => c == '.' || hasDotNotLast rest

/-- Match the part of the email regex after the at sign: one or more
non-whitespace non-at characters, a dot, then one or more of the same.
Because the dot itself lies in the character class, this holds exactly
when every character is admissible and some dot is neither first nor
last. -/
def tailMatch : List Char → Bool
  | [] => false
  | c :: rest => isEmailChar c && rest.all isEmailChar && hasDotNotLast rest

/-- Match the rest of the string after the maximal admissible prefix:
it must start with the at sign, the prefix must be nonempty, and the
remainder must satisfy tailMatch. -/
def emailAux (before rest : List Char) : Bool :=
  match rest with
  | [] => false
  | c :: t => c == '@' && !before.isEmpty && tailMatch t

/-- The anchored email regex of validateForm, applied to the raw email
string: one or more characters that are neither whitespace nor the at
sign, an at sign, one or more such characters, a dot, one or more such
characters. -/
def emailRegexTest (s : String) : Bool :=
  emailAux (s.data.takeWhile isEmailChar) (s.data.dropWhile isEmailChar)

/-- The email shape as a decomposition: the string splits as
a ++ at ++ b ++ dot ++ c with a, b, c nonempty and every character of
them neither whitespace nor an at sign. -/
def EmailShape (s : String) : Prop :=
  ∃ a b c : List Char,
    s.data = a ++ '@' :: (b ++ '.' :: c) ∧
    a ≠ [] ∧ b ≠ [] ∧ c ≠ [] ∧
    (∀ x ∈ a, isEmailChar x = true) ∧
    (∀ x ∈ b, isEmailChar x = true) ∧
    (∀ x ∈ c, isEmailChar x = true)

/-- Value of a hexadecimal digit character, none otherwise. -/
def hexDigitVal (c : Char) : Option Nat :=
  if '0' ≤ c ∧ c ≤ '9' then some (c.toNat - '0'.toNat)
  else if 'a' ≤ c ∧ c ≤ 'f' then some (c.toNat - 'a'.toNat + 10)
  else if 'A' ≤ c ∧ c ≤ 'F' then some (c.toNat - 'A'.toNat + 10)
  else none

/-- Is the character a digit of the given radix (10 or 16)? -/
def isRadixDigit (radix : Nat) (c : Char) : Bool :=
  match hexDigitVal c with
  | some v => v < radix
  | none => false

/-- Numeric value of a digit character, defaulting to zero. -/
def digitValNat (c : Char) : Nat :=
  (hexDigitVal c).getD 0

/-- JavaScript parseInt with the radix argument omitted, as called by
validateForm: skip leading whitespace, read an optional sign, detect a
0x or 0X prefix (then radix 16, else radix 10), take the longest
prefix of digits of that radix, and fail (NaN, modelled as none) when
that prefix is empty. -/
def parseIntJS (s : String) : Option Int :=
  let cs := s.data.dropWhile Char.isWhitespace
  let signed : Int × List Char :=
    match cs with
    | '-' :: t => (-1, t)
    | '+' :: t => (1, t)
    | _ => (1, cs)
  let based : Nat × List Char :=
    match signed.2 with
    | '0' :: 'x' :: t => (16, t)
    | '0' :: 'X' :: t => (16, t)
    | _ => (10, signed.2)
  let ds := based.2.takeWhile (isRadixDigit based.1)
  if ds.isEmpty then none
  else some (signed.1 * (Int.ofNat (ds.foldl (fun acc c => acc * based.1 + digitValNat c) 0)))

/-- Remove leading and trailing whitespace, as the trim method of JS
strings does. -/
def jsTrim (s : String) : String :=
  String.mk (((s.data.dropWhile Char.isWhitespace).reverse.dropWhile Char.isWhitespace).reverse)

/-- Is the string empty after trimming, i.e. all whitespace?  In JS the
empty trimmed string is the falsy case of the completeness check. -/
def trimIsEmpty (s : String) : Bool :=
  s.data.all Char.isWhitespace

/-- The completeness check of validateForm: some field is empty after
trimming. -/
def anyMissing (fd : FormData) : Bool :=
  trimIsEmpty fd.name || trimIsEmpty fd.age || trimIsEmpty fd.city ||
  trimIsEmpty fd.phone || trimIsEmpty fd.email

/-- The age check of validateForm: parseInt gave NaN, or the value is
below 1 or above 150. -/
def ageInvalid (s : String) : Bool :=
  match parseIntJS s with
  | none => true
  | some n => decide (n < 1) || decide (150 < n)

/-- The three failure kinds of validateForm, in source order. -/
inductive ValidationError where
  | MissingFields | InvalidEmail | InvalidAge
deriving Repr, DecidableEq

/-- validateForm as a classifier: the first failing check in source
order, none when the state is valid.  The source function additionally
emits the corresponding toast and returns a boolean; the toast mapping
is errorToast below. -/
def validateForm (fd : FormData) : Option ValidationError :=
  if anyMissing fd then some .MissingFields
  else if !emailRegexTest fd.email then some .InvalidEmail
  else if ageInvalid fd.age then some .InvalidAge
  else none

/-- A toast notification: title, description, and variant (none for the
default variant, as in the success toast). -/
structure Toast where
  title : String
  description : String
  variant : Option String
deriving Repr, DecidableEq

/-- The toast emitted by validateForm for each failure kind. -/
def errorToast : ValidationError → Toast
  | .MissingFields =>
    { title := "Missing Information",
      description := "Please fill in all required fields.",
      variant := some "destructive" }
  | .InvalidEmail =>
    { title := "Invalid Email",
      description := "Please enter a valid email address.",
      variant := some "destructive" }
  | .InvalidAge =>
    { title := "Invalid Age",
      description := "Please enter a valid age.",
      variant := some "destructive" }

/-- The toast shown when the response is ok. -/
def successToast : Toast :=
  { title := "Success!",
    description := "Your information has been submitted successfully.",
    variant := none }

/-- The toast shown by the catch block for every failed submission. -/
def submissionErrorToast : Toast :=
  { title := "Submission Error",
    description := "There was an error submitting your information. Please try again.",
    variant := some "destructive" }

/-- The fixed webhook endpoint of the source. -/
def WEBHOOK_URL : String :=
  "https://loopzenn.app.n8n.cloud/webhook-test/flowternity-forn"

/-- Escape one character as inside a JSON string literal, following
JSON.stringify. -/
def jsonEscapeChar (c : Char) : String :=
  if c = '"' then "\\\""
  else if c = '\\' then "\\\\"
  else if c = '\n' then "\\n"
  else if c = '\r' then "\\r"
  else if c = '\t' then "\\t"
  else if c = '\x08' then "\\b"
  else if c = '\x0c' then "\\f"
  else if c.toNat < 32 then
    "\\u00" ++ String.singleton (Char.ofNat (if c.toNat / 16 < 10 then '0'.toNat + c.toNat / 16 else 'a'.toNat + c.toNat / 16 - 10))
             ++ String.singleton (Char.ofNat (if c.toNat % 16 < 10 then '0'.toNat + c.toNat % 16 else 'a'.toNat + c.toNat % 16 - 10))
  else String.singleton c

/-- A JSON string literal for the given string. -/
def jsonQuote (s : String) : String :=
  "\"" ++ String.join (s.data.map jsonEscapeChar) ++ "\""

/-- JSON.stringify of the form data: an object with the five keys in
declaration order, values the raw field strings. -/
def jsonStringify (fd : FormData) : String :=
  "\x7b\"name\":" ++ jsonQuote fd.name ++
  ",\"age\":" ++ jsonQuote fd.age ++
  ",\"city\":" ++ jsonQuote fd.city ++
  ",\"phone\":" ++ jsonQuote fd.phone ++
  ",\"email\":" ++ jsonQuote fd.email ++ "\x7d"

/-- One outbound HTTP request as issued by fetch. -/
structure HttpRequest where
  method : String
  url : String
  contentType : String
  body : String
deriving Repr, DecidableEq

/-- The request handleSubmit issues for the given form data. -/
def mkRequest (fd : FormData) : HttpRequest :=
  { method := "POST", url := WEBHOOK_URL,
    contentType := "application/json", body := jsonStringify fd }

/-- Outcome of the awaited fetch: a response with a status and body
text, or a rejection before any response (connection failure or any
other exception). -/
inductive NetworkResult where
  | response (status : Nat) (body : String)
  | networkFailure
deriving Repr, DecidableEq

/-- The ok classification of a fetch response: status in the 2xx
range. -/
def respOk (status : Nat) : Bool :=
  decide (200 ≤ status) && decide (status ≤ 299)

/-- The observable result of one handleSubmit run: final form data,
the arguments passed to setIsSubmitting in order, the toasts shown, and
the requests issued. -/
structure SubmitResult where
  formData : FormData
  submittingCalls : List Bool
  toasts : List Toast
  requests : List HttpRequest
deriving Repr, DecidableEq

/-- handleSubmit of the source, with the awaited fetch outcome passed
in explicitly.  On validation failure it returns before setting the
flag or issuing a request; otherwise it sets the flag, issues one POST,
and in the try block either resets the form (response ok) or throws
into the catch block (non-ok response, via the thrown Error, or a fetch
rejection), which shows the generic error toast; the finally block
clears the flag on every path. -/
def handleSubmit (fd : FormData) (net : NetworkResult) : SubmitResult :=
  match validateForm fd with
  | some e =>
    { formData := fd, submittingCalls := [], toasts := [errorToast e], requests := [] }
  | none =>
    let req := mkRequest fd
    match net with
    | .response status _ =>
      if respOk status then
        { formData := emptyFormData, submittingCalls := [true, false],
          toasts := [successToast], requests := [req] }
      else
        { formData := fd, submittingCalls := [true, false],
          toasts := [submissionErrorToast], requests := [req] }
    | .networkFailure =>
      { formData := fd, submittingCalls := [true, false],
        toasts := [submissionErrorToast], requests := [req] }

/-- The isSubmitting flag after the run: the last value passed to
setIsSubmitting, false (its initial value) when it was never set. -/
def finalIsSubmitting (r : SubmitResult) : Bool :=
  r.submittingCalls.getLastD false

/-- The concrete form state of the spec scenarios. -/
def jane : FormData :=
  { name := "Jane Doe", age := "30", city := "Springfield",
    phone := "555-1234", email := "jane@example.com" }

/-- takeWhile and dropWhile at a split whose left part satisfies the
predicate and whose first right element does not. -/
theorem takeWhile_append_of (p : Char → Bool) (a : List Char) (x : Char) (r : List Char)
    (ha : ∀ y ∈ a, p y = true) (hx : p x = false) :
    (a ++ x :: r).takeWhile p = a ∧ (a ++ x :: r).dropWhile p = x :: r := by
  induction a with
  | nil => simp [List.takeWhile_cons, List.dropWhile_cons, hx]
  | cons c t ih =>
    have hc : p c = true := ha c (by simp)
    have ht := ih (fun y hy => ha y (by simp [hy]))
    simp [List.takeWhile_cons, List.dropWhile_cons, hc, ht.1, ht.2]

/-- hasDotNotLast holds exactly when the list splits around a dot with a
nonempty remainder. -/
theorem hasDotNotLast_iff (l : List Char) :
    hasDotNotLast l = true ↔ ∃ u v, l = u ++ '.' :: v ∧ v ≠ [] := by
  induction l with
  | nil =>
    constructor
    · intro h; simp [hasDotNotLast] at h
    · rintro ⟨u, v, h, hv⟩
      have := congrArg List.length h
      simp [List.length_append] at this
      omega
  | cons c t ih =>
    cases t with
    | nil =>
      constructor
      · intro h; simp [hasDotNotLast] at h
      · rintro ⟨u, v, h, hv⟩
        cases u with
        | nil =>
          simp at h
          exact absurd h.2 hv
        | cons u0 us =>
          have := congrArg List.length h
          simp [List.length_append] at this
    | cons d s =>
      constructor
      · intro h
        simp only [hasDotNotLast, Bool.or_eq_true, beq_iff_eq] at h
        rcases h with h | h
        · exact ⟨[], d :: s, by simp [h], by simp⟩
        · rcases ih.mp h with ⟨u, v, huv, hv⟩
          exact ⟨c :: u, v, by simp [huv], hv⟩
      · rintro ⟨u, v, h, hv⟩
        cases u with
        | nil =>
          simp at h
          simp [hasDotNotLast, h.1]
        | cons u0 us =>
          simp at h
          have : hasDotNotLast (d :: s) = true := ih.mpr ⟨us, v, h.2, hv⟩
          simp [hasDotNotLast, this]

/-- tailMatch holds exactly when the list splits as b ++ dot ++ c with
b, c nonempty lists of admissible characters. -/
theorem tailMatch_iff (t : List Char) :
    tailMatch t = true ↔
      ∃ b c, t = b ++ '.' :: c ∧ b ≠ [] ∧ c ≠ [] ∧
        (∀ x ∈ b, isEmailChar x = true) ∧ (∀ x ∈ c, isEmailChar x = true) := by
  cases t with
  | nil =>
    constructor
    · intro h; simp [tailMatch] at h
    · rintro ⟨b, c, h, hb, _⟩
      have := congrArg List.length h
      simp [List.length_append] at this
      omega
  | cons c0 rest =>
    simp only [tailMatch, Bool.and_eq_true, List.all_eq_true]
    constructor
    · rintro ⟨⟨hc0, hrest⟩, hdot⟩
      rcases (hasDotNotLast_iff rest).mp hdot with ⟨u, v, huv, hv⟩
      refine ⟨c0 :: u, v, by simp [huv], by simp, hv, ?_, ?_⟩
      · intro x hx
        rcases List.mem_cons.mp hx with rfl | hx
        · exact hc0
        · exact hrest x (by rw [huv]; exact List.mem_append_left _ hx)
      · intro x hx
        exact hrest x (by rw [huv]; exact List.mem_append_right _ (List.mem_cons_of_mem _ hx))
    · rintro ⟨b, v, hbv, hb, hv, hball, hvall⟩
      cases b with
      | nil => exact absurd rfl hb
      | cons b0 bs =>
        simp only [List.cons_append, List.cons.injEq] at hbv
        refine ⟨⟨?_, ?_⟩, ?_⟩
        · rw [hbv.1]; exact hball b0 (by simp)
        · intro x hx
          rw [hbv.2] at hx
          rcases List.mem_append.mp hx with hx | hx
          · exact hball x (List.mem_cons_of_mem _ hx)
          · rcases List.mem_cons.mp hx with rfl | hx
            · decide
            · exact hvall x hx
        · exact (hasDotNotLast_iff rest).mpr ⟨bs, v, hbv.2, hv⟩

/-- The regex matcher agrees with the declarative email shape. -/
theorem emailRegexTest_iff (s : String) :
    emailRegexTest s = true ↔ EmailShape s := by
  constructor
  · intro h
    unfold emailRegexTest emailAux at h
    cases hd : s.data.dropWhile isEmailChar with
    | nil => rw [hd] at h; simp at h
    | cons c t =>
      rw [hd] at h
      simp only [Bool.and_eq_true, beq_iff_eq] at h
      obtain ⟨⟨hc, hne⟩, htm⟩ := h
      rcases (tailMatch_iff t).mp htm with ⟨b, v, htv, hb, hv, hball, hvall⟩
      refine ⟨s.data.takeWhile isEmailChar, b, v, ?_, ?_, hb, hv, ?_, hball, hvall⟩
      · conv_lhs => rw [← List.takeWhile_append_dropWhile (l := s.data) (p := isEmailChar)]
        rw [hd, hc, htv]
      · intro hnil; rw [hnil] at hne; simp at hne
      · intro x hx; exact List.mem_takeWhile_imp hx
  · rintro ⟨a, b, v, hsplit, ha, hb, hv, haall, hball, hvall⟩
    have h1 := takeWhile_append_of isEmailChar a '@' (b ++ '.' :: v) haall (by decide)
    unfold emailRegexTest
    rw [hsplit, h1.1, h1.2]
    unfold emailAux
    simp only [Bool.and_eq_true, beq_self_eq_true, true_and]
    refine ⟨by simpa using ha, ?_⟩
    exact (tailMatch_iff _).mpr ⟨b, v, rfl, hb, hv, hball, hvall⟩

/-- Modelled from the spec: standard base-10 leading-integer parsing
with an optional sign — "leading/trailing non-numeric content fails the
parse ... a string like 12abc parses as 12".  For comparison with the
parseInt call of the source, which also skips leading whitespace and
honours a 0x prefix. -/
def leadingIntParse (s : String) : Option Int :=
  let signed : Int × List Char :=
    match s.data with
    | '-' :: t => (-1, t)
    | '+' :: t => (1, t)
    | _ => (1, s.data)
  let ds := signed.2.takeWhile Char.isDigit
  if ds.isEmpty then none
  else some (signed.1 * (Int.ofNat (ds.foldl (fun acc c => acc * 10 + (c.toNat - '0'.toNat)) 0)))

/-- Modelled from the spec: age is invalid when the spec-side parse
fails or the value is outside 1..150. -/
def claimAgeBad (s : String) : Bool :=
  match leadingIntParse s with
  | none => true
  | some n => decide (n < 1) || decide (150 < n)

/-- Modelled from the spec wording of the email rule: one or more
non-whitespace non-at characters, an at sign, one or more
non-whitespace characters, a dot, one or more non-whitespace
characters — the two parts after the at sign exclude only whitespace,
unlike the regex of the source. -/
def claimEmailMatch (s : String) : Bool :=
  match s.data.dropWhile isEmailChar with
  | [] => false
  | c :: t =>
    c == '@' && !(s.data.takeWhile isEmailChar).isEmpty &&
    t.all (fun x => !x.isWhitespace) &&
    (match t with | [] => false | _ :: rest => hasDotNotLast rest)

example : validateForm jane = none := by decide
example : emailRegexTest "jane@example.com" = true := by decide
example : emailRegexTest " a@b.c " = false := by decide
example : emailRegexTest "a@b.c" = true := by decide
example : emailRegexTest "a@b@c.d" = false := by decide
example : parseIntJS "0x10" = some 16 := by decide
example : parseIntJS " 42" = some 42 := by decide
example : parseIntJS "12abc" = some 12 := by decide
example : parseIntJS "abc" = none := by decide
example : parseIntJS "-7" = some (-7) := by decide
example : jsonStringify jane =
  "\x7b\"name\":\"Jane Doe\",\"age\":\"30\",\"city\":\"Springfield\",\"phone\":\"555-1234\",\"email\":\"jane@example.com\"\x7d" := by decide

/-- C1: for the Jane Doe form state, handleSubmit issues exactly one
POST to the webhook with the JSON serialization of the five fields
(age as the raw string), and on any 2xx response all five fields are
reset to the empty string, the flag trace is set-then-clear, the
success toast is shown, and isSubmitting ends false. -/
theorem submit_success_jane : ∀ status body, respOk status = true →
    handleSubmit jane (.response status body) =
      { formData := emptyFormData,
        submittingCalls := [true, false],
        toasts := [successToast],
        requests := [{ method := "POST", url := WEBHOOK_URL,
                       contentType := "application/json",
                       body := "\x7b\"name\":\"Jane Doe\",\"age\":\"30\",\"city\":\"Springfield\",\"phone\":\"555-1234\",\"email\":\"jane@example.com\"\x7d" }] } ∧
    finalIsSubmitting (handleSubmit jane (.response status body)) = false := by
  intro status body h
  have hv : validateForm jane = none := by decide
  have hbody : jsonStringify jane =
      "\x7b\"name\":\"Jane Doe\",\"age\":\"30\",\"city\":\"Springfield\",\"phone\":\"555-1234\",\"email\":\"jane@example.com\"\x7d" := by decide
  constructor
  · simp [handleSubmit, hv, h, mkRequest, hbody]
  · simp [handleSubmit, hv, h, finalIsSubmitting]

/-- C1 witness: the success scenario at status 200. -/
theorem submit_success_jane_witness :
    handleSubmit jane (.response 200 "") =
      { formData := emptyFormData,
        submittingCalls := [true, false],
        toasts := [successToast],
        requests := [{ method := "POST", url := WEBHOOK_URL,
                       contentType := "application/json",
                       body := "\x7b\"name\":\"Jane Doe\",\"age\":\"30\",\"city\":\"Springfield\",\"phone\":\"555-1234\",\"email\":\"jane@example.com\"\x7d" }] } ∧
    finalIsSubmitting (handleSubmit jane (.response 200 "")) = false :=
  submit_success_jane 200 "" (by decide)

/-- C2: for every form state that validates, a non-2xx response and a
thrown network call produce identical outcomes: the single generic
submission-error toast, the fields untouched, and isSubmitting false. -/
theorem submit_failure_paths : ∀ fd status body,
    validateForm fd = none → respOk status = false →
    handleSubmit fd (.response status body) = handleSubmit fd .networkFailure ∧
    (handleSubmit fd (.response status body)).toasts = [submissionErrorToast] ∧
    (handleSubmit fd (.response status body)).formData = fd ∧
    finalIsSubmitting (handleSubmit fd (.response status body)) = false := by
  intro fd status body hv hs
  simp [handleSubmit, hv, hs, finalIsSubmitting]

/-- C2 witness: the Jane Doe state with a 500 response. -/
theorem submit_failure_paths_witness :
    handleSubmit jane (.response 500 "server error") = handleSubmit jane .networkFailure ∧
    (handleSubmit jane (.response 500 "server error")).toasts = [submissionErrorToast] ∧
    (handleSubmit jane (.response 500 "server error")).formData = jane ∧
    finalIsSubmitting (handleSubmit jane (.response 500 "server error")) = false :=
  submit_failure_paths jane 500 "server error" (by decide) (by decide)

/-- C3: on every exit path of handleSubmit the final isSubmitting is
false, and the sequence of writes to the flag is either empty
(validation failure) or set-true-then-clear-false (the finally
block). -/
theorem isSubmitting_always_restored : ∀ fd net,
    finalIsSubmitting (handleSubmit fd net) = false ∧
    ((handleSubmit fd net).submittingCalls = [] ∨
      (handleSubmit fd net).submittingCalls = [true, false]) := by
  intro fd net
  unfold handleSubmit
  cases hv : validateForm fd with
  | some e => simp [finalIsSubmitting]
  | none =>
    cases net with
    | response status body =>
      by_cases h : respOk status = true <;> simp [h, finalIsSubmitting]
    | networkFailure => simp [finalIsSubmitting]

/-- C4: when some field is empty or whitespace-only after trimming,
validateForm returns MissingFields and handleSubmit issues no request
and never writes the isSubmitting flag. -/
theorem missing_fields_no_network : ∀ fd net,
    (trimIsEmpty fd.name = true ∨ trimIsEmpty fd.age = true ∨
     trimIsEmpty fd.city = true ∨ trimIsEmpty fd.phone = true ∨
     trimIsEmpty fd.email = true) →
    validateForm fd = some .MissingFields ∧
    (handleSubmit fd net).requests = [] ∧
    (handleSubmit fd net).submittingCalls = [] := by
  intro fd net h
  have hm : anyMissing fd = true := by
    unfold anyMissing
    rcases h with h | h | h | h | h <;> simp [h]
  have hv : validateForm fd = some .MissingFields := by
    simp [validateForm, hm]
  exact ⟨hv, by simp [handleSubmit, hv], by simp [handleSubmit, hv]⟩

/-- C4 witness: the empty form. -/
theorem missing_fields_no_network_witness :
    validateForm emptyFormData = some .MissingFields ∧
    (handleSubmit emptyFormData .networkFailure).requests = [] ∧
    (handleSubmit emptyFormData .networkFailure).submittingCalls = [] :=
  missing_fields_no_network emptyFormData .networkFailure (Or.inl (by decide))

/-- C5 counterexample: with age 0x10 (and the other Jane Doe fields)
the code accepts the submission, because parseInt with no radix reads
the string as hexadecimal 16; base-10 leading-integer parsing as the
claim states it reads 0, which is out of range, so the claimed
equivalence fails at this state. -/
theorem age_claim_cex :
    ¬ ((validateForm { jane with age := "0x10" } = some .InvalidAge) ↔
        claimAgeBad "0x10" = true) := by decide

/-- C5 amended: past the completeness and email checks, validateForm
returns InvalidAge exactly when parseInt with no radix (leading
whitespace skipped, optional sign, 0x hexadecimal prefix honoured)
fails, or the parsed value is below 1 or above 150. -/
theorem age_validation_amended : ∀ fd,
    anyMissing fd = false → emailRegexTest fd.email = true →
    ((validateForm fd = some .InvalidAge) ↔
      (parseIntJS fd.age = none ∨
        ∃ n, parseIntJS fd.age = some n ∧ (n < 1 ∨ 150 < n))) := by
  intro fd h1 h2
  cases hp : parseIntJS fd.age with
  | none => simp [validateForm, h1, h2, ageInvalid, hp]
  | some n =>
    simp only [validateForm, h1, h2, ageInvalid, hp, Bool.false_eq_true, if_false,
      Bool.not_true, reduceCtorEq, Option.some.injEq, false_or]
    by_cases hn : n < 1 ∨ 150 < n
    · rcases hn with hn | hn <;> simp [hn]
    · push_neg at hn
      have : ¬ (n < 1) := by omega
      have h150 : ¬ (150 < n) := by omega
      simp [this, h150]

/-- C5 witness: age 0 is rejected as InvalidAge. -/
theorem age_validation_amended_witness :
    (validateForm { jane with age := "0" } = some .InvalidAge) ↔
      (parseIntJS "0" = none ∨ ∃ n, parseIntJS "0" = some n ∧ (n < 1 ∨ 150 < n)) :=
  age_validation_amended { jane with age := "0" } (by decide) (by decide)

/-- C6 counterexample: with email " a@b.c " (and the other Jane Doe
fields) the trimmed email matches the pattern of the claim, yet the
code reports InvalidEmail, because the regex is applied to the raw,
untrimmed field. -/
theorem email_claim_cex :
    ¬ ((validateForm { jane with email := " a@b.c " } = some .InvalidEmail) ↔
        claimEmailMatch (jsTrim " a@b.c ") = false) := by decide

/-- C6 amended: past the completeness check, validateForm returns
InvalidEmail exactly when the raw (untrimmed) email does not split as
a nonempty run of non-whitespace non-at characters, an at sign, a
nonempty run, a dot, and a nonempty run, all three runs excluding
whitespace and the at sign. -/
theorem email_validation_amended : ∀ fd,
    anyMissing fd = false →
    ((validateForm fd = some .InvalidEmail) ↔ ¬ EmailShape fd.email) := by
  intro fd h1
  rw [← emailRegexTest_iff]
  cases he : emailRegexTest fd.email with
  | false => simp [validateForm, h1, he]
  | true =>
    simp only [validateForm, h1, Bool.false_eq_true, if_false, he, Bool.not_true]
    constructor
    · intro h
      by_cases ha : ageInvalid fd.age = true <;> simp [ha] at h
    · intro h
      exact absurd trivial h

/-- C6 witness: an email with no at sign is rejected as InvalidEmail. -/
theorem email_validation_amended_witness :
    (validateForm { jane with email := "nope" } = some .InvalidEmail) ↔
      ¬ EmailShape "nope" :=
  email_validation_amended { jane with email := "nope" } (by decide)

/-- C7: validation short-circuits in the order completeness, email
shape, age range; in particular a state with both a missing field and
a bad email reports MissingFields, never InvalidEmail. -/
theorem validate_short_circuit :
    (∀ fd, anyMissing fd = true → validateForm fd = some .MissingFields) ∧
    (∀ fd, anyMissing fd = false → emailRegexTest fd.email = false →
      validateForm fd = some .InvalidEmail) ∧
    (∀ fd, anyMissing fd = false → emailRegexTest fd.email = true →
      ageInvalid fd.age = true → validateForm fd = some .InvalidAge) ∧
    (∀ fd, anyMissing fd = true → emailRegexTest fd.email = false →
      validateForm fd = some .MissingFields ∧
      validateForm fd ≠ some .InvalidEmail) := by
  refine ⟨?_, ?_, ?_, ?_⟩
  · intro fd h; simp [validateForm, h]
  · intro fd h1 h2; simp [validateForm, h1, h2]
  · intro fd h1 h2 h3; simp [validateForm, h1, h2, h3]
  · intro fd h1 h2
    refine ⟨by simp [validateForm, h1], by simp [validateForm, h1]⟩

/-- C7 witness: the empty form has both a missing field and a bad
email and reports MissingFields. -/
theorem validate_short_circuit_witness :
    validateForm emptyFormData = some .MissingFields ∧
    validateForm emptyFormData ≠ some .InvalidEmail :=
  validate_short_circuit.2.2.2 emptyFormData (by decide) (by decide)

/-- C8: handleInputChange is idempotent, leaves isSubmitting
untouched, and changes no field other than the named one. -/
theorem updateField_idem_frame : ∀ st f v,
    handleInputChange (handleInputChange st f v) f v = handleInputChange st f v ∧
    (handleInputChange st f v).isSubmitting = st.isSubmitting ∧
    ∀ g, g ≠ f →
      getField (handleInputChange st f v).formData g = getField st.formData g := by
  intro st f v
  refine ⟨?_, rfl, ?_⟩
  · cases f <;> rfl
  · intro g hg
    cases f <;> cases g <;> first | exact absurd rfl hg | rfl

/-- C8 witness: the city update of the spec scenario, checked at the
name field. -/
theorem updateField_idem_frame_witness :
    handleInputChange (handleInputChange ⟨jane, false⟩ .city "Metropolis") .city "Metropolis" =
      handleInputChange ⟨jane, false⟩ .city "Metropolis" ∧
    getField (handleInputChange ⟨jane, false⟩ .city "Metropolis").formData .name =
      getField jane .name :=
  ⟨(updateField_idem_frame ⟨jane, false⟩ .city "Metropolis").1,
   (updateField_idem_frame ⟨jane, false⟩ .city "Metropolis").2.2 .name (by decide)⟩

/-- C9: every validation failure produces exactly one toast, with the
exact title, message and destructive variant of the spec. -/
theorem validation_toasts :
    (∀ fd e net, validateForm fd = some e →
      (handleSubmit fd net).toasts = [errorToast e]) ∧
    errorToast .MissingFields =
      { title := "Missing Information",
        description := "Please fill in all required fields.",
        variant := some "destructive" } ∧
    errorToast .InvalidEmail =
      { title := "Invalid Email",
        description := "Please enter a valid email address.",
        variant := some "destructive" } ∧
    errorToast .InvalidAge =
      { title := "Invalid Age",
        description := "Please enter a valid age.",
        variant := some "destructive" } := by
  refine ⟨?_, rfl, rfl, rfl⟩
  intro fd e net hv
  simp [handleSubmit, hv]

/-- C9 witness: the empty form shows the MissingFields toast. -/
theorem validation_toasts_witness :
    (handleSubmit emptyFormData .networkFailure).toasts = [errorToast .MissingFields] :=
  validation_toasts.1 emptyFormData .MissingFields .networkFailure (by decide)

/-- C10: parseInt with no radix reads 0x10 as hexadecimal 16 and skips
the leading whitespace of 42 with a space, so both age strings pass
validation in an otherwise valid state. -/
theorem parseInt_radix_artifacts :
    parseIntJS "0x10" = some 16 ∧ parseIntJS " 42" = some 42 ∧
    validateForm { jane with age := "0x10" } = none ∧
    validateForm { jane with age := " 42" } = none := by decide
